import Mathlib

/-!
Shallow embedding of the example-execution and monitoring core of the
`d-becker/jenkins` repository (the Oozie example runner under
`scripts/oozie_testing/inside_container/example_runner.py`, the report data
model in `scripts/oozie_testing/inside_container/report.py`, and the log
aggregation in `scripts/output.py`).

Python strings are modelled as Lean `String` (operating on `String.data`
where character-level scanning is needed).  Subprocess invocations, HTTP
requests and the filesystem are modelled as explicit environment values:
each definition takes the data the corresponding Python call would have
produced.  Regular-expression extractions (`re.search`) are translated to
explicit character-list scanning functions with the same semantics on the
patterns used by the source (`job:(.*)`, `Status.*:(.*)\n`).
-/

/-! ## Character-list helpers (Python string primitives) -/

/-- Tests whether the second list is an initial segment of the first
(Python `str.startswith`). -/
def startsWithL : List Char → List Char → Bool
  | _, [] => true
  | [], _ :: _ => false
  | c :: cs, p :: ps => c == p && startsWithL cs ps

/-- Suffix of `s` immediately after the first occurrence of `pat`
(`none` when `pat` does not occur). -/
def afterFirst (pat : List Char) : List Char → Option (List Char)
  | [] => if startsWithL [] pat then some [] else none
  | c :: cs =>
    if startsWithL (c :: cs) pat then some ((c :: cs).drop pat.length)
    else afterFirst pat cs

/-- Index of the first occurrence of `pat` in the list (`none` when absent). -/
def findIdxAux (pat : List Char) : List Char → Option Nat
  | [] => if startsWithL [] pat then some 0 else none
  | c :: cs =>
    if startsWithL (c :: cs) pat then some 0
    else (findIdxAux pat cs).map (fun n => n + 1)

/-- Python `str.find`: index of the first occurrence, `-1` when absent. -/
def pyFind (s pat : List Char) : Int :=
  match findIdxAux pat s with
  | some n => (n : Int)
  | none => -1

/-- Python slice `s[i:]`, including the negative-index semantics
(`s[-1:]` is the last character). -/
def pySliceFrom (s : List Char) (i : Int) : List Char :=
  if i < 0 then s.drop (s.length - (-i).toNat) else s.drop i.toNat

/-- ASCII whitespace as recognised by Python `str.strip`. -/
def isPySpace (c : Char) : Bool :=
  c == ' ' || c == '\t' || c == '\n' || c == '\x0d' || c == '\x0b' || c == '\x0c'

/-- Python `str.strip`: removes whitespace from both ends. -/
def stripChars (s : List Char) : List Char :=
  ((s.dropWhile isPySpace).reverse.dropWhile isPySpace).reverse

/-! ## Data model (`report.py`) -/

/-- The `Result` enumeration of `report.py`: the closed set of terminal/skip
outcomes of one example run. -/
inductive Result where
  | SUCCEEDED
  | SKIPPED
  | TIMED_OUT
  | KILLED
  | FAILED
  | ERROR
  deriving DecidableEq, Repr

/-- Python `Result[name]` (enum lookup by member name): `none` models the
`KeyError` raised on a miss. -/
def Result.fromName (s : String) : Option Result :=
  if s = "SUCCEEDED" then some .SUCCEEDED
  else if s = "SKIPPED" then some .SKIPPED
  else if s = "TIMED_OUT" then some .TIMED_OUT
  else if s = "KILLED" then some .KILLED
  else if s = "FAILED" then some .FAILED
  else if s = "ERROR" then some .ERROR
  else none

/-- The `ReportRecord` value of `report.py`: the per-example outcome unit. -/
structure ReportRecord where
  name : String
  result : Result
  oozie_job_id : Option String
  applications : List String
  stdout : Option String
  stderr : Option String
  deriving DecidableEq, Repr

/-! ## Subprocess results (`subprocess.run` and `OozieSubprocessResult`) -/

/-- The data of a completed subprocess (`subprocess.CompletedProcess`),
with its output already decoded to a string. -/
structure SubprocessResult where
  returncode : Int
  stdout : String
  stderr : String
  deriving DecidableEq, Repr

/-- The `OozieSubprocessResult` wrapper of `example_runner.py`. -/
structure OozieSubprocessResult where
  message : String
  returncode : Int
  stdout : String
  stderr : String
  deriving DecidableEq, Repr

/-- `OozieSubprocessResult.from_process_result`. -/
def OozieSubprocessResult.from_process_result (message : String)
    (p : SubprocessResult) : OozieSubprocessResult :=
  ⟨message, p.returncode, p.stdout, p.stderr⟩

/-- `OozieSubprocessResult.to_string`. -/
def OozieSubprocessResult.to_string (r : OozieSubprocessResult) : String :=
  "Oozie subprocess failed. Message: " ++ r.message ++ "\nReturn code: "
    ++ toString r.returncode ++ "\nStdout:\n" ++ r.stdout
    ++ "\nStderr:\n" ++ r.stderr

/-! ## Submission, status query and kill (`example_runner.py`) -/

/-- Group 1 of `re.search("job:(.*)", output)`, stripped: the text after the
first occurrence of `job:` up to the end of that line.  `none` models the
`ValueError` raised by `_launch_oozie_job_by_command` when the pattern is
absent. -/
def findJobId (output : String) : Option String :=
  match afterFirst ("job:".data) output.data with
  | none => none
  | some rest => some (String.mk (stripChars (rest.takeWhile (fun c => c != '\n'))))

/-- `_launch_oozie_job_by_command`: a non-zero exit code is returned as
`Sum.inr code`, a parsed job id as `Sum.inl id`; `Except.error` models the
`ValueError` raised when a zero-exit output holds no `job:` handle. -/
def _launch_oozie_job_by_command (proc : SubprocessResult) (example_name : String) :
    Except String (Sum String Int) :=
  if proc.returncode != 0 then .ok (.inr proc.returncode)
  else
    match findJobId proc.stdout with
    | none => .error ("The job id could not be determined for example " ++ example_name)
    | some job_id => .ok (.inl job_id)

/-- Group 1 of a successful `re.search("Status.*:(.*)\n", s)` applied to the
text following one occurrence of `Status`: the rest of that line must contain
a colon and be newline-terminated; the group is the text after the last colon
of the line (the leading `.*` is greedy). -/
def statusLineGroup (s : List Char) : Option (List Char) :=
  let line := s.takeWhile (fun c => c != '\n')
  if decide (line.length < s.length) && line.contains ':' then
    some ((line.reverse.takeWhile (fun c => c != ':')).reverse)
  else none

/-- `re.search("Status.*:(.*)\n", output)`: scan for the first occurrence of
`Status` whose line admits a match, and return group 1. -/
def findStatus : List Char → Option (List Char)
  | [] => none
  | c :: cs =>
    if startsWithL (c :: cs) ("Status".data) then
      match statusLineGroup ((c :: cs).drop 6) with
      | some g => some g
      | none => findStatus cs
    else findStatus cs

/-- The value `query_job` hands to its caller: either a parsed status string,
or the `OozieSubprocessResult` object returned when the query subprocess
exited non-zero. -/
inductive QueryRes where
  | status (s : String)
  | failed
  deriving DecidableEq, Repr

/-- `query_job`: on non-zero exit the failure object is *returned* (not
raised); on zero exit the status is extracted, and a missing `Status` line
raises a `ValueError` (modelled by `Except.error` with its message). -/
def query_job (proc : SubprocessResult) (job_id : String) : Except String QueryRes :=
  if proc.returncode != 0 then .ok .failed
  else
    match findStatus proc.stdout.data with
    | none => .error ("The status could not be determined for job id " ++ job_id)
    | some g => .ok (.status (String.mk (stripChars g)))

/-- `kill_job`: returns the kill subprocess's exit code. -/
def kill_job (kill_proc : SubprocessResult) : Int :=
  kill_proc.returncode

/-- The Python comparison `status == "RUNNING"`: true only for a parsed
status string equal to `RUNNING` (an `OozieSubprocessResult` object never
compares equal to a string). -/
def isRunning : QueryRes → Bool
  | .status s => s == "RUNNING"
  | .failed => false

/-- The Python lookup `report.Result[status]` on the loop's final `status`
value: an enum-name lookup for a string, a guaranteed `KeyError` (`none`)
for an `OozieSubprocessResult` object. -/
def resultIndex : QueryRes → Option Result
  | .status s => Result.fromName s
  | .failed => none

/-- The polling loop of `wait_for_job_to_finish`:
`while status == "RUNNING" and (time.time() - start_time) < timeout`.
`queries k` is the result of the `k`-th call to `query_job` (the call before
the loop is `k = 0`); `elapsed k` is the value of `time.time() - start_time`
at the `k`-th loop-condition check; `fuel` bounds the number of iterations
(`none` = still polling after `fuel` checks).  A `ValueError` raised inside
`query_job` propagates (`some (.error _)`). -/
def waitLoop (queries : Nat → Except String QueryRes) (elapsed : Nat → Nat)
    (timeout : Nat) : Nat → Nat → Option (Except String QueryRes)
  | 0, _ => none
  | f + 1, k =>
    match queries k with
    | .error m => some (.error m)
    | .ok st =>
      if isRunning st && decide (elapsed k < timeout) then
        waitLoop queries elapsed timeout f (k + 1)
      else some (.ok st)

/-- The loop-continuation condition of `wait_for_job_to_finish` at check `k`
(false as well when the `k`-th `query_job` call raises). -/
def passes (queries : Nat → Except String QueryRes) (elapsed : Nat → Nat)
    (timeout : Nat) (k : Nat) : Bool :=
  match queries k with
  | .error _ => false
  | .ok st => isRunning st && decide (elapsed k < timeout)

/-- What `wait_for_job_to_finish` does after the loop: return a `Result`,
or raise (`KeyError` from `Result[status]`, or a propagated `ValueError`
from `query_job`). -/
inductive WaitRes where
  | returns (r : Result)
  | raisesKeyError
  | raisesValueError (msg : String)
  deriving DecidableEq, Repr

/-- The sequence of `query_job` results for the polling environment
`query_procs` (the subprocess result of each successive status query). -/
def queriesOf (query_procs : Nat → SubprocessResult) (job_id : String) :
    Nat → Except String QueryRes :=
  fun k => query_job (query_procs k) job_id

/-- `wait_for_job_to_finish`, over the environment of its subprocess calls.
The returned pair carries the outcome together with the number of
`kill_job` invocations; `none` = the loop was still polling after `fuel`
checks. -/
def wait_for_job_to_finish (query_procs : Nat → SubprocessResult) (job_id : String)
    (elapsed : Nat → Nat) (kill_proc : SubprocessResult) (timeout fuel : Nat) :
    Option (WaitRes × Nat) :=
  match waitLoop (queriesOf query_procs job_id) elapsed timeout fuel 0 with
  | none => none
  | some (.error m) => some (.raisesValueError m, 0)
  | some (.ok st) =>
    if isRunning st then
      let _ := kill_job kill_proc
      some (.returns .TIMED_OUT, 1)
    else
      match resultIndex st with
      | some r => some (.returns r, 0)
      | none => some (.raisesKeyError, 0)

/-! ## Application discovery and id normalization -/

/-- `_get_application_name_from_external_id`: an id already starting with
`application` is returned unchanged; otherwise `application` is prepended to
the Python slice `external_id[index:]` where `index = external_id.find("_")`. -/
def _get_application_name_from_external_id (external_id : String) : String :=
  if startsWithL external_id.data ("application".data) then external_id
  else
    String.mk ("application".data ++ pySliceFrom external_id.data (pyFind external_id.data ("_".data)))

/-- `get_yarn_applications_of_job`, over the `externalId` fields of the
`actions` array of the job-info document (`none` = the JSON field is `null`):
keep the dispatched entries and normalize their ids. -/
def get_yarn_applications_of_job (actions : List (Option String)) : List String :=
  actions.filterMap (fun a =>
    match a with
    | none => none
    | some ext => if ext == "-" then none else some (_get_application_name_from_external_id ext))

/-! ## Launching one example (`_launch_and_wait_for_oozie_job` and the
`Example` variants) -/

/-- The environment of one submitted job: the subprocess results and HTTP
responses the Python code would observe while launching and monitoring it. -/
structure JobEnv where
  submit_proc : SubprocessResult
  query_procs : Nat → SubprocessResult
  elapsed : Nat → Nat
  kill_proc : SubprocessResult
  actions : List (Option String)
  oozie_logs : String
  oozie_error_logs : String

/-- `_launch_and_wait_for_oozie_job`: submit, and on success monitor the job,
fetch its yarn applications and Oozie logs, and build the final record.
`Except.error` models an exception propagating to the caller (the
`ValueError` of a handle-less zero-exit submission, or an exception escaping
`wait_for_job_to_finish`); the outer `none` is fuel exhaustion of the
polling loop. -/
def _launch_and_wait_for_oozie_job (env : JobEnv) (example_name : String)
    (timeout fuel : Nat) : Option (Except String ReportRecord) :=
  match _launch_oozie_job_by_command env.submit_proc example_name with
  | .error m => some (.error m)
  | .ok (.inr _code) => some (.ok ⟨example_name, .ERROR, none, [], none, none⟩)
  | .ok (.inl job_id) =>
    match wait_for_job_to_finish env.query_procs job_id env.elapsed env.kill_proc timeout fuel with
    | none => none
    | some (.raisesValueError m, _) => some (.error m)
    | some (.raisesKeyError, _) => some (.error "KeyError")
    | some (.returns final_status, _) =>
      some (.ok ⟨example_name, final_status, some job_id,
                 get_yarn_applications_of_job env.actions,
                 some ("Oozie logs:\n\n" ++ env.oozie_logs),
                 some ("Oozie error logs:\n\n" ++ env.oozie_error_logs)⟩)

/-- `FluentExampleBase.build_example`: compile, then package into a jar;
either subprocess failing yields the corresponding `OozieSubprocessResult`. -/
def build_example (compile_proc jar_proc : SubprocessResult) (example_name jar_path : String) :
    Sum String OozieSubprocessResult :=
  if compile_proc.returncode != 0 then
    .inr (OozieSubprocessResult.from_process_result
      ("Failed to build fluent job " ++ example_name ++ ".") compile_proc)
  else if jar_proc.returncode != 0 then
    .inr (OozieSubprocessResult.from_process_result
      ("Failed to create jar file for fluent job " ++ example_name ++ ".") jar_proc)
  else .inl jar_path

/-- The three `Example` variants with their launch-time environments. -/
inductive ExampleKind where
  | normal (env : JobEnv)
  | fluent (compile_proc jar_proc : SubprocessResult) (env : JobEnv)
  | fluentValidateOnly (compile_proc jar_proc validate_proc : SubprocessResult)

/-- One Oozie example: its logical name together with its variant. -/
structure ExampleM where
  name : String
  kind : ExampleKind

/-- `create_job_properties` (static method of `FluentExampleBase`): the text
written to the generated `job.properties` file. -/
def create_job_properties_content (options : List String) (oozie_version : String) : String :=
  String.intercalate "\n"
    (["queueName=default", "examplesRoot=examples", "projectVersion=" ++ oozie_version] ++ options)

/-- `create_job_properties` as a file-state transformer: the file is opened
with mode `w`, so the previous contents are discarded and the resulting file
holds exactly the generated text. -/
def create_job_properties (_previous_contents : Option String) (options : List String)
    (oozie_version : String) : String :=
  create_job_properties_content options oozie_version

/-- `Example.launch` for each variant.  The caller-supplied CLI options only
shape the submission command and the generated `job.properties` file (I/O
that the job environment already reflects), so they do not appear in the
returned record.  `Except.error` is an exception escaping `launch`. -/
def launchExample (e : ExampleM) (_cli_options : List String) (_poll_time timeout fuel : Nat) :
    Option (Except String ReportRecord) :=
  match e.kind with
  | .normal env => _launch_and_wait_for_oozie_job env e.name timeout fuel
  | .fluent compile_proc jar_proc env =>
    match build_example compile_proc jar_proc e.name "fluent.jar" with
    | .inr failure =>
      some (.ok ⟨e.name, .ERROR, none, [], none, some failure.to_string⟩)
    | .inl _jar => _launch_and_wait_for_oozie_job env e.name timeout fuel
  | .fluentValidateOnly compile_proc jar_proc validate_proc =>
    match build_example compile_proc jar_proc e.name "fluent.jar" with
    | .inr failure =>
      some (.ok ⟨e.name, .ERROR, none, [], none, some failure.to_string⟩)
    | .inl _jar =>
      some (.ok ⟨e.name,
                 if validate_proc.returncode == 0 then .SUCCEEDED else .ERROR,
                 none, [], some validate_proc.stdout, some validate_proc.stderr⟩)

/-! ## The orchestrator (`_get_example_result` and `run_examples`) -/

/-- The whitelist test of `_get_example_result`:
`whitelist is not None and example.name() not in whitelist`. -/
def whitelistBlocks (whitelist : Option (List String)) (name : String) : Bool :=
  match whitelist with
  | none => false
  | some l => !(l.contains name)

/-- The text `_get_example_result` writes to its error stream before the
traceback when `launch` raises. -/
def excMessage (name trace : String) : String :=
  "An exception occured trying to run or validate the example " ++ name ++ "." ++ trace

/-- `_get_example_result`: blacklist check, whitelist check, option assembly,
then `launch` under a catch-all that converts any exception into an `ERROR`
record.  (The source extends the shared `all` option list in place; only the
value passed to this launch is modelled.) -/
def _get_example_result (e : ExampleM) (whitelist : Option (List String))
    (blacklist : List String) (cli_options : String → Option (List String))
    (poll_time timeout fuel : Nat) : Option ReportRecord :=
  if blacklist.contains e.name then
    some ⟨e.name, .SKIPPED, none, [], none, none⟩
  else if whitelistBlocks whitelist e.name then
    some ⟨e.name, .SKIPPED, none, [], none, none⟩
  else
    let options := ((cli_options "all").getD []) ++ ((cli_options e.name).getD [])
    match launchExample e options poll_time timeout fuel with
    | none => none
    | some (.ok record) => some record
    | some (.error trace) =>
      some ⟨e.name, .ERROR, none, [], none, some (excMessage e.name trace)⟩

/-- `run_examples`: one `_get_example_result` call per example, in order. -/
def run_examples : List ExampleM → Option (List String) → List String →
    (String → Option (List String)) → Nat → Nat → Nat → Option (List ReportRecord)
  | [], _, _, _, _, _, _ => some []
  | e :: rest, whitelist, blacklist, cli_options, poll_time, timeout, fuel =>
    match _get_example_result e whitelist blacklist cli_options poll_time timeout fuel with
    | none => none
    | some record =>
      match run_examples rest whitelist blacklist cli_options poll_time timeout fuel with
      | none => none
      | some records => some (record :: records)

/-! ## Log aggregation (`output.py`) -/

/-- One directory entry under an application's log root, with the contents of
its `stdout` and `stderr` files. -/
structure LogDirEntry where
  entryName : String
  isDirectory : Bool
  stdoutText : String
  stderrText : String
  deriving DecidableEq, Repr

/-- The yarn log tree under `report_and_log_dir / "nodemanager" /
"hadoop-logs"`, keyed by application id: whether the application's log root
exists, and its directory entries (in listing order) when it does. -/
structure YarnLogsDir where
  appDirExists : String → Bool
  appDirEntries : String → List LogDirEntry

/-- `get_logs_for_yarn_application`: an absent log root yields the empty
dict; otherwise every subdirectory whose name starts with `container`
contributes its `stdout`/`stderr` texts, keyed by the container name. -/
def get_logs_for_yarn_application (application_id : String) (fs : YarnLogsDir) :
    List (String × String × String) :=
  if fs.appDirExists application_id then
    ((fs.appDirEntries application_id).filter
      (fun e => e.isDirectory && startsWithL e.entryName.data ("container".data))).map
      (fun e => (e.entryName, e.stdoutText, e.stderrText))
  else []

/-- The per-application header written by `printable_logs_for_oozie_job` to
both aggregate streams. -/
def application_header (application_id : String) : String :=
  String.mk (List.replicate (application_id.length + 4) '*') ++ "\n**"
    ++ application_id ++ "**\n"
    ++ String.mk (List.replicate (application_id.length + 4) '*') ++ "\n\n"

/-- One container's block in an aggregate stream: its header followed by the
captured text. -/
def container_block (container_id text : String) : String :=
  "**" ++ container_id ++ "**\n\n" ++ text ++ "\n\n"

/-- The loop body of `printable_logs_for_oozie_job` for one application id:
append the application header to both streams, then each container's
header-and-text block. -/
def printableStep (fs : YarnLogsDir) (acc : String × String) (application_id : String) :
    String × String :=
  let logs := get_logs_for_yarn_application application_id fs
  (logs.foldl (fun a entry => a ++ container_block entry.1 entry.2.1)
    (acc.1 ++ application_header application_id),
   logs.foldl (fun a entry => a ++ container_block entry.1 entry.2.2)
    (acc.2 ++ application_header application_id))

/-- `printable_logs_for_oozie_job`: for each application id of the record, in
order, write the application header to both streams, then each container's
header-and-text block. -/
def printable_logs_for_oozie_job (record : ReportRecord) (fs : YarnLogsDir) :
    String × String :=
  record.applications.foldl (printableStep fs) ("", "")

/-- Everything one application id adds to the aggregate stdout stream. -/
def appStdoutContribution (fs : YarnLogsDir) (application_id : String) : String :=
  (get_logs_for_yarn_application application_id fs).foldl
    (fun a entry => a ++ container_block entry.1 entry.2.1)
    (application_header application_id)

/-- Everything one application id adds to the aggregate stderr stream. -/
def appStderrContribution (fs : YarnLogsDir) (application_id : String) : String :=
  (get_logs_for_yarn_application application_id fs).foldl
    (fun a entry => a ++ container_block entry.1 entry.2.2)
    (application_header application_id)

/-- The status-query subprocess sequence of an example's job environment
(`none` for the validate-only variant, which never queries a job). -/
def kindQueryProcs : ExampleKind → Option (Nat → SubprocessResult)
  | .normal env => some env.query_procs
  | .fluent _ _ env => some env.query_procs
  | .fluentValidateOnly _ _ _ => none

/-- The engine behind the example never reports the given literal status
string on any status query. -/
def exampleNeverReports (e : ExampleM) (s : String) : Prop :=
  ∀ qp, kindQueryProcs e.kind = some qp →
    ∀ k job_id, query_job (qp k) job_id ≠ .ok (.status s)

/-- The polling loop steps by one check: it recurses exactly when the
continuation condition passes, and otherwise exits with the current query
result. -/
theorem waitLoop_succ (queries : Nat → Except String QueryRes) (elapsed : Nat → Nat)
    (timeout fuel k : Nat) :
    waitLoop queries elapsed timeout (fuel + 1) k =
      if passes queries elapsed timeout k then waitLoop queries elapsed timeout fuel (k + 1)
      else some (queries k) := by
  simp only [waitLoop, passes]
  split
  next heq =>
    cases hq : queries k with
    | error m => rw [hq] at heq; simp at heq
    | ok st =>
      rw [hq] at heq
      simp only [Bool.and_eq_true, decide_eq_true_eq] at heq
      simp [heq]
  next heq =>
    cases hq : queries k with
    | error m => simp
    | ok st =>
      rw [hq] at heq
      simp only [Bool.and_eq_true, decide_eq_true_eq] at heq
      simp [heq]

/-- Exit characterization of the polling loop: it yields `out` within `fuel`
checks starting at index `i` exactly when some check `i + k` is the first
failing one and `out` is the query result there. -/
theorem waitLoop_eq_some_iff (queries : Nat → Except String QueryRes) (elapsed : Nat → Nat)
    (timeout : Nat) : ∀ (fuel i : Nat) (out : Except String QueryRes),
    waitLoop queries elapsed timeout fuel i = some out ↔
      ∃ k, k < fuel ∧ (∀ j, j < k → passes queries elapsed timeout (i + j) = true) ∧
        passes queries elapsed timeout (i + k) = false ∧ queries (i + k) = out := by
  intro fuel
  induction fuel with
  | zero =>
    intro i out
    simp [waitLoop]
  | succ f ih =>
    intro i out
    rw [waitLoop_succ]
    by_cases hp : passes queries elapsed timeout i = true
    · rw [if_pos hp, ih]
      constructor
      · rintro ⟨k, hk, hall, hfail, hout⟩
        refine ⟨k + 1, by omega, ?_, ?_, ?_⟩
        · intro j hj
          cases j with
          | zero => simpa using hp
          | succ j' =>
            have hidx : i + (j' + 1) = (i + 1) + j' := by omega
            rw [hidx]
            exact hall j' (by omega)
        · have hidx : i + (k + 1) = (i + 1) + k := by omega
          rw [hidx]; exact hfail
        · have hidx : i + (k + 1) = (i + 1) + k := by omega
          rw [hidx]; exact hout
      · rintro ⟨k, hk, hall, hfail, hout⟩
        cases k with
        | zero =>
          rw [Nat.add_zero] at hfail
          rw [hp] at hfail
          exact absurd hfail (by simp)
        | succ k' =>
          refine ⟨k', by omega, ?_, ?_, ?_⟩
          · intro j hj
            have hidx : (i + 1) + j = i + (j + 1) := by omega
            rw [hidx]
            exact hall (j + 1) (by omega)
          · have hidx : (i + 1) + k' = i + (k' + 1) := by omega
            rw [hidx]; exact hfail
          · have hidx : (i + 1) + k' = i + (k' + 1) := by omega
            rw [hidx]; exact hout
    · rw [if_neg hp]
      have hp' : passes queries elapsed timeout i = false := by
        cases h : passes queries elapsed timeout i
        · rfl
        · exact absurd h hp
      constructor
      · intro h
        have hout : queries i = out := by
          injection h
        exact ⟨0, by omega, by intro j hj; omega, by simpa using hp', by simpa using hout⟩
      · rintro ⟨k, hk, hall, hfail, hout⟩
        cases k with
        | zero =>
          rw [Nat.add_zero] at hout
          rw [hout]
        | succ k' =>
          have := hall 0 (by omega)
          rw [Nat.add_zero] at this
          exact absurd this (by simp [hp'])

/-- A first failing check is unique. -/
theorem firstFalse_unique (p : Nat → Bool) (k k' : Nat)
    (hall : ∀ j, j < k → p j = true) (hfail : p k = false)
    (hall' : ∀ j, j < k' → p j = true) (hfail' : p k' = false) : k = k' := by
  rcases Nat.lt_trichotomy k k' with h | h | h
  · have := hall' k h
    rw [this] at hfail
    exact absurd hfail (by simp)
  · exact h
  · have := hall k' h
    rw [this] at hfail'
    exact absurd hfail' (by simp)

/-- `isRunning` holds exactly for the parsed status string `RUNNING`. -/
theorem isRunning_eq_true_iff (st : QueryRes) :
    isRunning st = true ↔ st = .status "RUNNING" := by
  cases st with
  | status s => simp [isRunning]
  | failed => simp [isRunning]

/-- A successful `Result[...]` lookup comes from a parsed status string whose
name is a `Result` member. -/
theorem resultIndex_eq_some (st : QueryRes) (r : Result)
    (h : resultIndex st = some r) :
    ∃ s, st = .status s ∧ Result.fromName s = some r := by
  cases st with
  | status s => exact ⟨s, rfl, h⟩
  | failed => exact absurd h (by simp [resultIndex])

/-- Only the name `TIMED_OUT` maps to `Result.TIMED_OUT`. -/
theorem fromName_timedOut (s : String) (h : Result.fromName s = some .TIMED_OUT) :
    s = "TIMED_OUT" := by
  unfold Result.fromName at h
  split_ifs at h <;> simp_all

/-- Only the name `SKIPPED` maps to `Result.SKIPPED`. -/
theorem fromName_skipped (s : String) (h : Result.fromName s = some .SKIPPED) :
    s = "SKIPPED" := by
  unfold Result.fromName at h
  split_ifs at h <;> simp_all

/-- The loop condition fails at a check where the status is `RUNNING` but the
timeout has been reached. -/
theorem passes_false_of_running_le (q : Nat → Except String QueryRes)
    (e : Nat → Nat) (t k : Nat) (hq : q k = .ok (.status "RUNNING"))
    (hle : t ≤ e k) : passes q e t k = false := by
  simp [passes, hq, isRunning, Nat.not_lt.mpr hle]

/-- The loop condition fails at a check whose status is not `RUNNING`. -/
theorem passes_false_of_ne_running (q : Nat → Except String QueryRes)
    (e : Nat → Nat) (t k : Nat) (s : String) (hq : q k = .ok (.status s))
    (hs : s ≠ "RUNNING") : passes q e t k = false := by
  simp [passes, hq, isRunning, hs]

/-- The result of `kill_job` is discarded: the wait's outcome does not depend
on the kill subprocess. -/
theorem wait_kill_proc_irrelevant (query_procs : Nat → SubprocessResult)
    (job_id : String) (elapsed : Nat → Nat) (kp kp' : SubprocessResult)
    (timeout fuel : Nat) :
    wait_for_job_to_finish query_procs job_id elapsed kp timeout fuel =
      wait_for_job_to_finish query_procs job_id elapsed kp' timeout fuel := rfl

/-- Claim C3 (amended): whenever `wait_for_job_to_finish` returns a result,
it is one of the six `Result` values; it returns `TIMED_OUT` exactly when
either polling ended with status `RUNNING` and the elapsed time reached the
timeout, or the loop exited on an engine-reported literal status `TIMED_OUT`;
exactly one kill is issued in the former case and none otherwise; and the
kill subprocess's exit code never affects the outcome. -/
theorem wait_for_job_to_finish_characterization
    (query_procs : Nat → SubprocessResult) (job_id : String) (elapsed : Nat → Nat)
    (kill_proc : SubprocessResult) (timeout fuel : Nat) (res : WaitRes) (kills : Nat)
    (h : wait_for_job_to_finish query_procs job_id elapsed kill_proc timeout fuel
          = some (res, kills)) :
    (∀ r, res = .returns r →
      (r = .SUCCEEDED ∨ r = .SKIPPED ∨ r = .TIMED_OUT ∨ r = .KILLED ∨ r = .FAILED ∨ r = .ERROR)) ∧
    (res = .returns .TIMED_OUT ↔
      (∃ k, k < fuel ∧
        (∀ j, j < k → passes (queriesOf query_procs job_id) elapsed timeout j = true) ∧
        (queriesOf query_procs job_id k = .ok (.status "RUNNING") ∧ timeout ≤ elapsed k ∨
         queriesOf query_procs job_id k = .ok (.status "TIMED_OUT")))) ∧
    (kills = 1 ↔
      (∃ k, k < fuel ∧
        (∀ j, j < k → passes (queriesOf query_procs job_id) elapsed timeout j = true) ∧
        queriesOf query_procs job_id k = .ok (.status "RUNNING") ∧ timeout ≤ elapsed k)) ∧
    (kills = 0 ∨ kills = 1) ∧
    (∀ kp, wait_for_job_to_finish query_procs job_id elapsed kp timeout fuel
            = some (res, kills)) := by
  have hkp : ∀ kp, wait_for_job_to_finish query_procs job_id elapsed kp timeout fuel
      = some (res, kills) := by
    intro kp
    rw [wait_kill_proc_irrelevant query_procs job_id elapsed kp kill_proc]
    exact h
  unfold wait_for_job_to_finish at h
  revert h
  cases hw : waitLoop (queriesOf query_procs job_id) elapsed timeout fuel 0 with
  | none => intro h; exact absurd h (by simp)
  | some out =>
    intro h
    rw [waitLoop_eq_some_iff] at hw
    obtain ⟨k, hk, hall, hfail, hqk⟩ := hw
    simp only [Nat.zero_add] at hall hfail hqk
    have huniq : ∀ k', (∀ j, j < k' →
        passes (queriesOf query_procs job_id) elapsed timeout j = true) →
        (queriesOf query_procs job_id k' = .ok (.status "RUNNING") ∧ timeout ≤ elapsed k' ∨
         queriesOf query_procs job_id k' = .ok (.status "TIMED_OUT")) → k' = k := by
      intro k' hall' hdisj
      have hfail' : passes (queriesOf query_procs job_id) elapsed timeout k' = false := by
        rcases hdisj with ⟨hq, hle⟩ | hq
        · exact passes_false_of_running_le _ _ _ _ hq hle
        · exact passes_false_of_ne_running _ _ _ _ _ hq (by decide)
      exact firstFalse_unique _ k' k hall' hfail' hall hfail
    cases out with
    | error m =>
      simp only [Option.some.injEq, Prod.mk.injEq] at h
      obtain ⟨rfl, rfl⟩ := h
      refine ⟨?_, ?_, ?_, ?_, hkp⟩
      · intro r hr; exact absurd hr (by simp)
      · constructor
        · intro hr; exact absurd hr (by simp)
        · rintro ⟨k', hk', hall', hdisj⟩
          have hke := huniq k' hall' hdisj
          subst hke
          rcases hdisj with ⟨hq, _⟩ | hq <;> rw [hqk] at hq <;> exact absurd hq (by simp)
      · constructor
        · intro h01; exact absurd h01 (by simp)
        · rintro ⟨k', hk', hall', hq, hle⟩
          have hke := huniq k' hall' (Or.inl ⟨hq, hle⟩)
          subst hke
          rw [hqk] at hq
          exact absurd hq (by simp)
      · exact Or.inl rfl
    | ok st =>
      cases hrun : isRunning st with
      | true =>
        have hst := (isRunning_eq_true_iff st).mp hrun
        subst hst
        simp only [hrun, if_true] at h
        simp only [Option.some.injEq, Prod.mk.injEq] at h
        obtain ⟨rfl, rfl⟩ := h
        have hle : timeout ≤ elapsed k := by
          simp [passes, hqk, isRunning] at hfail
          omega
        refine ⟨?_, ?_, ?_, Or.inr rfl, hkp⟩
        · intro r hr
          have : r = Result.TIMED_OUT := by
            injection hr with h1
            exact h1.symm
          subst this
          tauto
        · exact iff_of_true rfl ⟨k, hk, hall, Or.inl ⟨hqk, hle⟩⟩
        · exact iff_of_true rfl ⟨k, hk, hall, hqk, hle⟩
      | false =>
        simp only [hrun] at h
        cases hri : resultIndex st with
        | some r =>
          rw [hri] at h
          simp only [Option.some.injEq, Prod.mk.injEq] at h
          obtain ⟨rfl, rfl⟩ := h
          obtain ⟨s, rfl, hfn⟩ := resultIndex_eq_some st r hri
          refine ⟨?_, ?_, ?_, Or.inl rfl, hkp⟩
          · intro r' hr'
            injection hr' with h1
            cases h1
            rcases r with _ | _ | _ | _ | _ | _ <;> tauto
          · constructor
            · intro hto
              injection hto with h1
              subst h1
              have hs := fromName_timedOut s hfn
              subst hs
              exact ⟨k, hk, hall, Or.inr hqk⟩
            · rintro ⟨k', hk', hall', hdisj⟩
              have hke := huniq k' hall' hdisj
              subst hke
              rcases hdisj with ⟨hq, _⟩ | hq
              · rw [hqk] at hq
                simp only [Except.ok.injEq, QueryRes.status.injEq] at hq
                subst hq
                simp [isRunning] at hrun
              · rw [hqk] at hq
                simp only [Except.ok.injEq, QueryRes.status.injEq] at hq
                subst hq
                rw [show Result.fromName "TIMED_OUT" = some Result.TIMED_OUT from rfl] at hfn
                have : r = Result.TIMED_OUT := by
                  injection hfn with h1
                  exact h1.symm
                subst this
                rfl
          · constructor
            · intro h01; exact absurd h01 (by simp)
            · rintro ⟨k', hk', hall', hq, hle⟩
              have hke := huniq k' hall' (Or.inl ⟨hq, hle⟩)
              subst hke
              rw [hqk] at hq
              simp only [Except.ok.injEq, QueryRes.status.injEq] at hq
              subst hq
              simp [isRunning] at hrun
        | none =>
          rw [hri] at h
          simp only [Option.some.injEq, Prod.mk.injEq] at h
          obtain ⟨rfl, rfl⟩ := h
          refine ⟨?_, ?_, ?_, Or.inl rfl, hkp⟩
          · intro r hr; exact absurd hr (by simp)
          · constructor
            · intro hr; exact absurd hr (by simp)
            · rintro ⟨k', hk', hall', hdisj⟩
              have hke := huniq k' hall' hdisj
              subst hke
              rcases hdisj with ⟨hq, _⟩ | hq
              · rw [hqk] at hq
                simp only [Except.ok.injEq] at hq
                subst hq
                simp [isRunning] at hrun
              · rw [hqk] at hq
                simp only [Except.ok.injEq] at hq
                subst hq
                exact absurd hri (by decide)
          · constructor
            · intro h01; exact absurd h01 (by simp)
            · rintro ⟨k', hk', hall', hq, hle⟩
              have hke := huniq k' hall' (Or.inl ⟨hq, hle⟩)
              subst hke
              rw [hqk] at hq
              simp only [Except.ok.injEq] at hq
              subst hq
              simp [isRunning] at hrun

/-- Claim C1 (code bug): a failed status query does not let polling continue —
it ends the loop at once, and `Result[status]` then raises a `KeyError` on the
failure object.  Both a failure of the first query and of a mid-loop query
terminate `wait_for_job_to_finish` with an exception, contrary to the
documented warn-and-continue handling of transient query failures. -/
theorem wait_query_failure_ends_polling_and_raises :
    wait_for_job_to_finish (fun _ => ⟨-1, "", "error text"⟩) "job_1" (fun _ => 0)
        ⟨0, "", ""⟩ 60 5 = some (.raisesKeyError, 0) ∧
    wait_for_job_to_finish
        (fun k => if k == 0 then ⟨0, "Status : RUNNING\n", ""⟩ else ⟨-1, "", "error text"⟩)
        "job_1" (fun _ => 0) ⟨0, "", ""⟩ 60 5 = some (.raisesKeyError, 0) := by
  constructor <;> rfl

/-- Claim C3 (counterexample): if the engine itself reports the literal
status `TIMED_OUT`, the wait returns `TIMED_OUT` although the elapsed time
(constantly 0) never reached the timeout of 60, and no kill is issued. -/
theorem wait_engine_reported_timed_out_counterexample :
    wait_for_job_to_finish (fun _ => ⟨0, "Status : TIMED_OUT\n", ""⟩) "job_1"
        (fun _ => 0) ⟨0, "", ""⟩ 60 3 = some (.returns .TIMED_OUT, 0) ∧ (0 : Nat) < 60 := by
  constructor
  · rfl
  · decide

theorem wait_timeout_simple_evaluation :
    wait_for_job_to_finish (fun _ => ⟨0, "Status : RUNNING\n", ""⟩) "job_1"
        (fun n => n) ⟨0, "", ""⟩ 2 5 = some (.returns .TIMED_OUT, 1) := by rfl

/-- Claim C4: a loop-final status string that is neither `RUNNING` nor the
name of a `Result` member makes `wait_for_job_to_finish` raise (the enum
lookup `Result[status]` fails fast) instead of returning `Result.ERROR` or
any other `Result` value. -/
theorem wait_unknown_status_raises (query_procs : Nat → SubprocessResult) (job_id : String)
    (elapsed : Nat → Nat) (kill_proc : SubprocessResult) (timeout fuel : Nat) (s : String)
    (hexit : waitLoop (queriesOf query_procs job_id) elapsed timeout fuel 0
      = some (.ok (.status s)))
    (hnr : s ≠ "RUNNING") (hnm : Result.fromName s = none) :
    wait_for_job_to_finish query_procs job_id elapsed kill_proc timeout fuel
      = some (.raisesKeyError, 0) := by
  unfold wait_for_job_to_finish
  rw [hexit]
  simp [isRunning, hnr, resultIndex, hnm]

theorem wait_unknown_status_loop_evaluation :
    waitLoop (queriesOf (fun _ => ⟨0, "Status : SUSPENDED\n", ""⟩) "job_1") (fun _ => 0) 60 1 0
      = some (.ok (.status "SUSPENDED")) := by rfl

/-- String concatenation is associative. -/
theorem str_assoc (a b c : String) : (a ++ b) ++ c = a ++ (b ++ c) :=
  String.ext (by simp [String.data_append, List.append_assoc])

/-- The empty string is a right identity. -/
theorem str_append_empty (a : String) : a ++ "" = a :=
  String.ext (by simp [String.data_append, show ("" : String).data = [] from rfl])

/-- The empty string is a left identity. -/
theorem str_empty_append (a : String) : "" ++ a = a :=
  String.ext (by simp [String.data_append, show ("" : String).data = [] from rfl])

/-- Claim C5 (counterexample): the input `1539599757230_0001` is mapped to
`application_0001`, not `application_1539599757230_0001` — the slice starts
at the first underscore, dropping the leading timestamp component. -/
theorem application_name_normalization_counterexample :
    _get_application_name_from_external_id "1539599757230_0001" = "application_0001" ∧
    "application_0001" ≠ "application_1539599757230_0001" := by
  constructor
  · rfl
  · decide

/-- Claim C5 (amended): `_get_application_name_from_external_id` replaces
everything before the first underscore with `application` (so
`1539599757230_0001` maps to `application_0001`, while the engine's actual
external-id format `job_1539599757230_0001` maps to
`application_1539599757230_0001`), and any input already starting with
`application` is returned unchanged. -/
theorem application_name_normalization_amended :
    _get_application_name_from_external_id "1539599757230_0001" = "application_0001" ∧
    _get_application_name_from_external_id "job_1539599757230_0001"
      = "application_1539599757230_0001" ∧
    (∀ s, startsWithL s.data ("application".data) = true →
      _get_application_name_from_external_id s = s) := by
  refine ⟨by rfl, by rfl, ?_⟩
  intro s hs
  unfold _get_application_name_from_external_id
  rw [if_pos hs]

/-- Claim C8: `create_job_properties` writes exactly the three fixed
`key=value` lines followed by the caller options in the order given,
newline-joined with no trailing newline; the write truncates the file, so
repeating it with the same arguments yields the same contents. -/
theorem create_job_properties_content_spec :
    create_job_properties_content ["option1=A", "option2=B"] "5.1.0" =
      "queueName=default\nexamplesRoot=examples\nprojectVersion=5.1.0\noption1=A\noption2=B" ∧
    (∀ prev prev' options v,
      create_job_properties prev options v = create_job_properties prev' options v) ∧
    (∀ prev options v,
      create_job_properties (some (create_job_properties prev options v)) options v
        = create_job_properties prev options v) ∧
    (∀ v o1 o2, create_job_properties_content [o1, o2] v =
      "queueName=default" ++ "\n" ++ "examplesRoot=examples" ++ "\n" ++ "projectVersion="
        ++ v ++ "\n" ++ o1 ++ "\n" ++ o2) := by
  refine ⟨by rfl, fun _ _ _ _ => rfl, fun _ _ _ => rfl, ?_⟩
  intro v o1 o2
  show ((((((("queueName=default" ++ "\n") ++ "examplesRoot=examples") ++ "\n")
      ++ ("projectVersion=" ++ v)) ++ "\n") ++ o1) ++ "\n") ++ o2 = _
  simp only [str_assoc]

/-- Folding string-appends over a list distributes over a prefixed
accumulator. -/
theorem foldl_append_init {α : Type} (f : α → String) (l : List α) :
    ∀ (x y : String),
    l.foldl (fun a e => a ++ f e) (x ++ y) = x ++ l.foldl (fun a e => a ++ f e) y := by
  induction l with
  | nil => intro x y; simp
  | cons e rest ih =>
    intro x y
    simp only [List.foldl_cons]
    rw [str_assoc]
    exact ih x (y ++ f e)

/-- One application's step splits off its contribution to each stream. -/
theorem printableStep_eq (fs : YarnLogsDir) (acc : String × String) (a : String) :
    printableStep fs acc a =
      (acc.1 ++ appStdoutContribution fs a, acc.2 ++ appStderrContribution fs a) := by
  simp only [printableStep, appStdoutContribution, appStderrContribution]
  rw [foldl_append_init, foldl_append_init]

/-- The per-record fold is the concatenation of per-application
contributions. -/
theorem printable_fold (fs : YarnLogsDir) :
    ∀ (apps : List String) (acc : String × String),
    apps.foldl (printableStep fs) acc =
      (acc.1 ++ apps.foldl (fun s a => s ++ appStdoutContribution fs a) "",
       acc.2 ++ apps.foldl (fun s a => s ++ appStderrContribution fs a) "") := by
  intro apps
  induction apps with
  | nil => intro acc; simp [str_append_empty]
  | cons a rest ih =>
    intro acc
    simp only [List.foldl_cons]
    rw [printableStep_eq, ih]
    rw [str_empty_append, str_empty_append]
    have hA : rest.foldl (fun s x => s ++ appStdoutContribution fs x)
        (appStdoutContribution fs a)
        = appStdoutContribution fs a
          ++ rest.foldl (fun s x => s ++ appStdoutContribution fs x) "" := by
      conv_lhs => rw [← str_append_empty (appStdoutContribution fs a)]
      rw [foldl_append_init]
    have hB : rest.foldl (fun s x => s ++ appStderrContribution fs x)
        (appStderrContribution fs a)
        = appStderrContribution fs a
          ++ rest.foldl (fun s x => s ++ appStderrContribution fs x) "" := by
      conv_lhs => rw [← str_append_empty (appStderrContribution fs a)]
      rw [foldl_append_init]
    rw [hA, hB, ← str_assoc, ← str_assoc]

/-- Claim C9 (amended): the aggregate streams are the concatenation of
per-application contributions; an application id without a log root yields
the empty container dict and contributes exactly its application header (and
no container text) to each stream. -/
theorem missing_log_root_contributes_only_header :
    (∀ record fs, printable_logs_for_oozie_job record fs =
      (record.applications.foldl (fun s a => s ++ appStdoutContribution fs a) "",
       record.applications.foldl (fun s a => s ++ appStderrContribution fs a) "")) ∧
    (∀ fs a, fs.appDirExists a = false →
      get_logs_for_yarn_application a fs = [] ∧
      appStdoutContribution fs a = application_header a ∧
      appStderrContribution fs a = application_header a) := by
  constructor
  · intro record fs
    unfold printable_logs_for_oozie_job
    rw [printable_fold]
    rw [str_empty_append, str_empty_append]
  · intro fs a h
    have hempty : get_logs_for_yarn_application a fs = [] := by
      simp [get_logs_for_yarn_application, h]
    exact ⟨hempty, by simp [appStdoutContribution, hempty],
           by simp [appStderrContribution, hempty]⟩

/-- Claim C9 (counterexample): an application id whose log root does not
exist still contributes its application header to both aggregate streams,
which is non-empty text. -/
theorem missing_log_root_header_counterexample :
    printable_logs_for_oozie_job
        ⟨"ex", .FAILED, some "job_1", ["application_1"], none, none⟩
        ⟨fun _ => false, fun _ => []⟩
      = (application_header "application_1", application_header "application_1") ∧
    application_header "application_1" ≠ "" := by
  constructor
  · rfl
  · decide

/-- Claim C6: `run_examples` yields exactly one record per example, in input
order, each the `_get_example_result` of its example; an exception escaping
`launch` is caught at the per-example boundary and converted to an `ERROR`
record with no job id, no applications and the exception text in stderr, so
one example's failure never affects the remaining examples' records. -/
theorem run_examples_per_example_records (examples : List ExampleM) (wl : Option (List String))
    (bl : List String) (cli : String → Option (List String)) (pt tmo fuel : Nat)
    (records : List ReportRecord)
    (h : run_examples examples wl bl cli pt tmo fuel = some records) :
    records.length = examples.length ∧
    (∀ i (hi : i < examples.length) (hi' : i < records.length),
      _get_example_result (examples.get ⟨i, hi⟩) wl bl cli pt tmo fuel
        = some (records.get ⟨i, hi'⟩)) ∧
    (∀ e trace, bl.contains e.name = false → whitelistBlocks wl e.name = false →
      launchExample e (((cli "all").getD []) ++ ((cli e.name).getD [])) pt tmo fuel
        = some (.error trace) →
      _get_example_result e wl bl cli pt tmo fuel =
        some ⟨e.name, .ERROR, none, [], none, some (excMessage e.name trace)⟩) := by
  have hconv : ∀ e trace, bl.contains e.name = false → whitelistBlocks wl e.name = false →
      launchExample e (((cli "all").getD []) ++ ((cli e.name).getD [])) pt tmo fuel
        = some (.error trace) →
      _get_example_result e wl bl cli pt tmo fuel =
        some ⟨e.name, .ERROR, none, [], none, some (excMessage e.name trace)⟩ := by
    intro e trace hb hw hl
    unfold _get_example_result
    rw [hb, hw]
    simp only [Bool.false_eq_true, if_false]
    rw [hl]
  refine ⟨?_, ?_, hconv⟩ <;> clear hconv
  · induction examples generalizing records with
    | nil =>
      simp only [run_examples, Option.some.injEq] at h
      rw [← h]
      rfl
    | cons e rest ih =>
      unfold run_examples at h
      revert h
      cases hr : _get_example_result e wl bl cli pt tmo fuel with
      | none => intro h; exact absurd h (by simp)
      | some rec =>
        cases hrest : run_examples rest wl bl cli pt tmo fuel with
        | none => intro h; exact absurd h (by simp)
        | some recs =>
          intro h
          simp only [Option.some.injEq] at h
          rw [← h]
          simp only [List.length_cons]
          rw [ih recs hrest]
  · induction examples generalizing records with
    | nil =>
      simp only [run_examples, Option.some.injEq] at h
      rw [← h]
      intro i hi
      exact absurd hi (by simp)
    | cons e rest ih =>
      unfold run_examples at h
      revert h
      cases hr : _get_example_result e wl bl cli pt tmo fuel with
      | none => intro h; exact absurd h (by simp)
      | some rec =>
        cases hrest : run_examples rest wl bl cli pt tmo fuel with
        | none => intro h; exact absurd h (by simp)
        | some recs =>
          intro h
          simp only [Option.some.injEq] at h
          rw [← h]
          intro i hi hi'
          cases i with
          | zero => exact hr
          | succ i' =>
            exact ih recs hrest i' (by simpa using hi) (by simpa using hi')

/-- Claim C10: with the empty-list whitelist every example — blacklisted or
not — yields a `SKIPPED` record with no job id, while with whitelist `None`
a non-blacklisted example's launch outcome is returned as its record. -/
theorem empty_whitelist_skips_all (cli : String → Option (List String)) (pt tmo fuel : Nat) :
    (∀ (examples : List ExampleM) (bl : List String),
      run_examples examples (some []) bl cli pt tmo fuel =
        some (examples.map (fun e => ⟨e.name, .SKIPPED, none, [], none, none⟩))) ∧
    (∀ (e : ExampleM) (bl : List String) (rec : ReportRecord),
      bl.contains e.name = false →
      launchExample e (((cli "all").getD []) ++ ((cli e.name).getD [])) pt tmo fuel
        = some (.ok rec) →
      _get_example_result e none bl cli pt tmo fuel = some rec) := by
  constructor
  · intro examples bl
    induction examples with
    | nil => rfl
    | cons e rest ih =>
      have hskip : _get_example_result e (some []) bl cli pt tmo fuel
          = some ⟨e.name, .SKIPPED, none, [], none, none⟩ := by
        unfold _get_example_result
        cases hb : bl.contains e.name with
        | true => simp
        | false => simp [whitelistBlocks]
      unfold run_examples
      rw [hskip, ih]
      rfl
  · intro e bl rec hb hl
    unfold _get_example_result
    rw [hb]
    simp only [Bool.false_eq_true, if_false, whitelistBlocks]
    rw [hl]

/-- Claim C2 (amended): a ProtocolMismatch (zero-exit submission output with
no `job:` handle) aborts only that example's launch; `_get_example_result`
catches the `ValueError` and yields an `ERROR` record carrying the exception
text, and the remaining examples are processed exactly as they would be
without it. -/
theorem protocol_mismatch_becomes_error_record (rest : List ExampleM) (env : JobEnv) (name : String)
    (bl : List String) (cli : String → Option (List String)) (pt tmo fuel : Nat)
    (hrc : env.submit_proc.returncode = 0)
    (hjid : findJobId env.submit_proc.stdout = none)
    (hbl : bl.contains name = false) :
    run_examples (⟨name, .normal env⟩ :: rest) none bl cli pt tmo fuel =
      (run_examples rest none bl cli pt tmo fuel).map
        (fun recs =>
          (⟨name, .ERROR, none, [], none,
            some (excMessage name
              ("The job id could not be determined for example " ++ name))⟩ : ReportRecord)
            :: recs) := by
  have hger : _get_example_result ⟨name, .normal env⟩ none bl cli pt tmo fuel =
      some ⟨name, .ERROR, none, [], none,
        some (excMessage name ("The job id could not be determined for example " ++ name))⟩ := by
    unfold _get_example_result launchExample _launch_and_wait_for_oozie_job
      _launch_oozie_job_by_command
    simp only [hbl, hrc, hjid, whitelistBlocks, Bool.false_eq_true, if_false]
    simp
  have hcons : run_examples (⟨name, ExampleKind.normal env⟩ :: rest) none bl cli pt tmo fuel
      = (match _get_example_result ⟨name, ExampleKind.normal env⟩ none bl cli pt tmo fuel with
         | none => none
         | some record =>
           match run_examples rest none bl cli pt tmo fuel with
           | none => none
           | some records => some (record :: records)) := rfl
  rw [hcons, hger]
  cases hrest : run_examples rest none bl cli pt tmo fuel <;> rfl

/-- If the wait returns `SKIPPED`, some status query parsed the literal
status string `SKIPPED`. -/
theorem wait_returns_skipped_source (query_procs : Nat → SubprocessResult) (job_id : String)
    (elapsed : Nat → Nat) (kill_proc : SubprocessResult) (timeout fuel kills : Nat)
    (h : wait_for_job_to_finish query_procs job_id elapsed kill_proc timeout fuel
      = some (.returns .SKIPPED, kills)) :
    ∃ k, query_job (query_procs k) job_id = .ok (.status "SKIPPED") := by
  unfold wait_for_job_to_finish at h
  revert h
  cases hw : waitLoop (queriesOf query_procs job_id) elapsed timeout fuel 0 with
  | none => intro h; exact absurd h (by simp)
  | some out =>
    intro h
    rw [waitLoop_eq_some_iff] at hw
    obtain ⟨k, hk, hall, hfail, hqk⟩ := hw
    cases out with
    | error m => exact absurd h (by simp)
    | ok st =>
      cases hrun : isRunning st with
      | true =>
        simp only [hrun, if_true] at h
        simp at h
      | false =>
        simp only [hrun] at h
        cases hri : resultIndex st with
        | none => rw [hri] at h; exact absurd h (by simp)
        | some r =>
          rw [hri] at h
          simp only [Option.some.injEq, Prod.mk.injEq, WaitRes.returns.injEq] at h
          obtain ⟨rfl, _⟩ := h
          obtain ⟨s, hst, hfn⟩ := resultIndex_eq_some st _ hri
          have hs := fromName_skipped s hfn
          subst hs
          refine ⟨k, ?_⟩
          have hq : queriesOf query_procs job_id (0 + k) = .ok st := hqk
          rw [hst] at hq
          simpa [queriesOf, Nat.zero_add] using hq

/-- If the job environment never reports status `SKIPPED`, a record produced
by `_launch_and_wait_for_oozie_job` with result `SKIPPED` has no job id
(vacuously: such a record cannot exist). -/
theorem law_skipped_no_job (env : JobEnv) (name : String) (tmo fuel : Nat)
    (rec : ReportRecord)
    (hq : ∀ k job_id, query_job (env.query_procs k) job_id ≠ .ok (.status "SKIPPED"))
    (h : _launch_and_wait_for_oozie_job env name tmo fuel = some (.ok rec))
    (hres : rec.result = .SKIPPED) :
    rec.oozie_job_id = none := by
  unfold _launch_and_wait_for_oozie_job at h
  split at h
  next m heq => exact absurd h (by simp)
  next code heq =>
    simp only [Option.some.injEq, Except.ok.injEq] at h
    rw [← h] at hres
    exact absurd hres (by simp)
  next job_id heq =>
    split at h
    next hwd => exact absurd h (by simp)
    next m kills hwd => exact absurd h (by simp)
    next kills hwd => exact absurd h (by simp)
    next r kills hwd =>
      simp only [Option.some.injEq, Except.ok.injEq] at h
      rw [← h] at hres
      simp only at hres
      subst hres
      obtain ⟨k, hk⟩ := wait_returns_skipped_source env.query_procs job_id env.elapsed
        env.kill_proc tmo fuel kills hwd
      exact absurd hk (hq k job_id)

/-- A record produced by `_get_example_result` with result `SKIPPED` has no
job id, provided the example's engine never reports status `SKIPPED`. -/
theorem ger_skipped_no_job (e : ExampleM) (wl : Option (List String)) (bl : List String)
    (cli : String → Option (List String)) (pt tmo fuel : Nat) (rec : ReportRecord)
    (hnr : exampleNeverReports e "SKIPPED")
    (h : _get_example_result e wl bl cli pt tmo fuel = some rec)
    (hres : rec.result = .SKIPPED) :
    rec.oozie_job_id = none := by
  unfold _get_example_result at h
  split at h
  · injection h with h1
    subst h1
    rfl
  · split at h
    · injection h with h1
      subst h1
      rfl
    · replace h : (match launchExample e (((cli "all").getD []) ++ ((cli e.name).getD []))
          pt tmo fuel with
        | none => none
        | some (.ok record) => some record
        | some (.error trace) =>
          some ⟨e.name, .ERROR, none, [], none, some (excMessage e.name trace)⟩) = some rec := h
      revert h
      cases hl : launchExample e (((cli "all").getD []) ++ ((cli e.name).getD []))
          pt tmo fuel with
      | none => intro h; exact absurd h (by simp)
      | some exc =>
        intro h
        cases exc with
        | error trace =>
          injection h with h1
          subst h1
          exact absurd hres (by simp)
        | ok record =>
          injection h with h1
          subst h1
          obtain ⟨ename, kind⟩ := e
          cases kind with
          | normal env =>
            exact law_skipped_no_job env ename tmo fuel _
              (hnr env.query_procs rfl) hl hres
          | fluent cp jp env =>
            simp only [launchExample] at hl
            revert hl
            cases hb2 : build_example cp jp ename "fluent.jar" with
            | inr failure =>
              intro hl
              simp only [Option.some.injEq, Except.ok.injEq] at hl
              subst hl
              exact absurd hres (by simp)
            | inl jar =>
              intro hl
              exact law_skipped_no_job env ename tmo fuel _
                (hnr env.query_procs rfl) hl hres
          | fluentValidateOnly cp jp vp =>
            simp only [launchExample] at hl
            revert hl
            cases hb2 : build_example cp jp ename "fluent.jar" with
            | inr failure =>
              intro hl
              simp only [Option.some.injEq, Except.ok.injEq] at hl
              subst hl
              rfl
            | inl jar =>
              intro hl
              simp only [Option.some.injEq, Except.ok.injEq] at hl
              subst hl
              rfl

/-- Each returned record is the `_get_example_result` of some input example. -/
theorem run_examples_mem (examples : List ExampleM) (wl : Option (List String))
    (bl : List String) (cli : String → Option (List String)) (pt tmo fuel : Nat)
    (records : List ReportRecord)
    (h : run_examples examples wl bl cli pt tmo fuel = some records) :
    ∀ rec ∈ records, ∃ e ∈ examples,
      _get_example_result e wl bl cli pt tmo fuel = some rec := by
  induction examples generalizing records with
  | nil =>
    simp only [run_examples, Option.some.injEq] at h
    rw [← h]
    intro rec hrec
    exact absurd hrec (by simp)
  | cons e rest ih =>
    unfold run_examples at h
    revert h
    cases hr : _get_example_result e wl bl cli pt tmo fuel with
    | none => intro h; exact absurd h (by simp)
    | some rec0 =>
      cases hrest : run_examples rest wl bl cli pt tmo fuel with
      | none => intro h; exact absurd h (by simp)
      | some recs =>
        intro h
        simp only [Option.some.injEq] at h
        subst h
        intro rec hrec
        rcases List.mem_cons.mp hrec with rfl | hmem
        · exact ⟨e, List.mem_cons_self e rest, hr⟩
        · obtain ⟨e', he', hge⟩ := ih recs hrest rec hmem
          exact ⟨e', List.mem_cons_of_mem e he', hge⟩

/-- Claim C7 (amended): provided no example's engine ever reports the literal
status `SKIPPED` (the spec's data model: `SKIPPED` is produced locally only),
every record produced by `run_examples` with result `SKIPPED` has no job
id. -/
theorem skipped_records_have_no_job_id (examples : List ExampleM) (wl : Option (List String)) (bl : List String)
    (cli : String → Option (List String)) (pt tmo fuel : Nat) (records : List ReportRecord)
    (h : run_examples examples wl bl cli pt tmo fuel = some records)
    (hnr : ∀ e ∈ examples, exampleNeverReports e "SKIPPED") :
    ∀ rec ∈ records, rec.result = .SKIPPED → rec.oozie_job_id = none := by
  intro rec hrec hres
  obtain ⟨e, he, hge⟩ := run_examples_mem examples wl bl cli pt tmo fuel records h rec hrec
  exact ger_skipped_no_job e wl bl cli pt tmo fuel rec (hnr e he) hge hres

/-- Claim C7 (counterexample): if a job's status query reports the literal
status `SKIPPED`, the monitored-job path produces a record with result
`SKIPPED` and a present job id. -/
theorem skipped_record_with_job_id_counterexample :
    run_examples
        [⟨"ex1", .normal ⟨⟨0, "job: job_1\n", ""⟩, fun _ => ⟨0, "Status : SKIPPED\n", ""⟩,
          fun _ => 0, ⟨0, "", ""⟩, [], "", ""⟩⟩]
        none [] (fun _ => none) 1 60 3
      = some [⟨"ex1", .SKIPPED, some "job_1", [], some "Oozie logs:\n\n",
              some "Oozie error logs:\n\n"⟩] ∧
    (some "job_1" : Option String) ≠ none := by
  constructor
  · rfl
  · decide

theorem skipped_records_have_no_job_id_witness :
    (ReportRecord.mk "exw" Result.SKIPPED none [] none none).oozie_job_id = none := by
  have hnr : ∀ e ∈ [(⟨"exw",
      ExampleKind.fluentValidateOnly ⟨0, "", ""⟩ ⟨0, "", ""⟩ ⟨0, "", ""⟩⟩ : ExampleM)],
      exampleNeverReports e "SKIPPED" := by
    intro e he
    simp only [List.mem_singleton] at he
    subst he
    intro qp hqp
    exact absurd hqp (by simp [kindQueryProcs])
  exact skipped_records_have_no_job_id
    [⟨"exw", ExampleKind.fluentValidateOnly ⟨0, "", ""⟩ ⟨0, "", ""⟩ ⟨0, "", ""⟩⟩]
    none ["exw"] (fun _ => none) 1 60 1
    [⟨"exw", .SKIPPED, none, [], none, none⟩] (by rfl) hnr
    ⟨"exw", .SKIPPED, none, [], none, none⟩ (by simp) rfl

/-- Claim C2 (counterexample): a submission that exits 0 without a `job:`
handle raises a `ValueError`, but the per-example catch-all converts it into
an `ERROR` record and the following example is still processed — the run is
not aborted. -/
theorem protocol_mismatch_caught_counterexample :
    run_examples
        [⟨"a", .normal ⟨⟨0, "no handle in output", ""⟩, fun _ => ⟨0, "", ""⟩,
          fun _ => 0, ⟨0, "", ""⟩, [], "", ""⟩⟩,
         ⟨"b", .fluentValidateOnly ⟨0, "", ""⟩ ⟨0, "", ""⟩ ⟨0, "", ""⟩⟩]
        none [] (fun _ => none) 1 60 3
      = some [⟨"a", .ERROR, none, [], none,
                some (excMessage "a" "The job id could not be determined for example a")⟩,
              ⟨"b", .SUCCEEDED, none, [], some "", some ""⟩] := by
  rfl

theorem protocol_mismatch_becomes_error_record_witness :
    run_examples
        [⟨"c", .normal ⟨⟨0, "zero exit without handle", ""⟩, fun _ => ⟨0, "", ""⟩,
          fun _ => 0, ⟨0, "", ""⟩, [], "", ""⟩⟩,
         ⟨"d", .fluentValidateOnly ⟨0, "", ""⟩ ⟨0, "", ""⟩ ⟨0, "", ""⟩⟩]
        none [] (fun _ => none) 1 60 3
      = some [⟨"c", .ERROR, none, [], none,
                some (excMessage "c" "The job id could not be determined for example c")⟩,
              ⟨"d", .SUCCEEDED, none, [], some "", some ""⟩] := by
  have h := protocol_mismatch_becomes_error_record
    [⟨"d", ExampleKind.fluentValidateOnly ⟨0, "", ""⟩ ⟨0, "", ""⟩ ⟨0, "", ""⟩⟩]
    ⟨⟨0, "zero exit without handle", ""⟩, fun _ => ⟨0, "", ""⟩, fun _ => 0, ⟨0, "", ""⟩,
      [], "", ""⟩
    "c" [] (fun _ => none) 1 60 3 rfl rfl rfl
  rw [h]
  rfl

theorem wait_for_job_to_finish_characterization_witness :
    (1 : Nat) = 1 ↔
      (∃ k, k < 5 ∧
        (∀ j, j < k → passes (queriesOf (fun _ => ⟨0, "Status : RUNNING\n", ""⟩) "job_1")
          (fun n => n) 2 j = true) ∧
        queriesOf (fun _ => ⟨0, "Status : RUNNING\n", ""⟩) "job_1" k
          = .ok (.status "RUNNING") ∧ 2 ≤ (fun n : Nat => n) k) :=
  (wait_for_job_to_finish_characterization (fun _ => ⟨0, "Status : RUNNING\n", ""⟩) "job_1"
    (fun n => n) ⟨0, "", ""⟩ 2 5 (.returns .TIMED_OUT) 1 (by rfl)).2.2.1

theorem wait_unknown_status_raises_witness :
    wait_for_job_to_finish (fun _ => ⟨0, "Status : SUSPENDED\n", ""⟩) "job_1" (fun _ => 0)
      ⟨0, "", ""⟩ 60 1 = some (.raisesKeyError, 0) :=
  wait_unknown_status_raises (fun _ => ⟨0, "Status : SUSPENDED\n", ""⟩) "job_1" (fun _ => 0) ⟨0, "", ""⟩ 60 1
    "SUSPENDED" (by rfl) (by decide) (by rfl)

theorem application_name_normalization_witness :
    _get_application_name_from_external_id "application_1539599757230_0001"
      = "application_1539599757230_0001" :=
  (application_name_normalization_amended).2.2 "application_1539599757230_0001" (by rfl)

theorem run_examples_per_example_records_witness :
    _get_example_result
        ⟨"w6", .normal ⟨⟨0, "no handle", ""⟩, fun _ => ⟨0, "", ""⟩, fun _ => 0,
          ⟨0, "", ""⟩, [], "", ""⟩⟩
        none [] (fun _ => none) 1 60 2
      = some ⟨"w6", .ERROR, none, [], none,
          some (excMessage "w6" "The job id could not be determined for example w6")⟩ :=
  (run_examples_per_example_records
    [⟨"w6", .normal ⟨⟨0, "no handle", ""⟩, fun _ => ⟨0, "", ""⟩, fun _ => 0,
      ⟨0, "", ""⟩, [], "", ""⟩⟩]
    none [] (fun _ => none) 1 60 2
    [⟨"w6", .ERROR, none, [], none,
      some (excMessage "w6" "The job id could not be determined for example w6")⟩]
    (by rfl)).2.2
    ⟨"w6", .normal ⟨⟨0, "no handle", ""⟩, fun _ => ⟨0, "", ""⟩, fun _ => 0,
      ⟨0, "", ""⟩, [], "", ""⟩⟩
    "The job id could not be determined for example w6" (by rfl) (by rfl) (by rfl)

theorem missing_log_root_contributes_only_header_witness :
    get_logs_for_yarn_application "application_9" ⟨fun _ => false, fun _ => []⟩ = [] ∧
    appStdoutContribution ⟨fun _ => false, fun _ => []⟩ "application_9"
      = application_header "application_9" ∧
    appStderrContribution ⟨fun _ => false, fun _ => []⟩ "application_9"
      = application_header "application_9" :=
  (missing_log_root_contributes_only_header).2 ⟨fun _ => false, fun _ => []⟩ "application_9" rfl

theorem empty_whitelist_skips_all_witness :
    run_examples
        [⟨"w1", .fluentValidateOnly ⟨0, "", ""⟩ ⟨0, "", ""⟩ ⟨0, "", ""⟩⟩,
         ⟨"w2", .fluentValidateOnly ⟨0, "", ""⟩ ⟨0, "", ""⟩ ⟨1, "", "boom"⟩⟩]
        (some []) ["w2"] (fun _ => none) 1 60 1
      = some [⟨"w1", .SKIPPED, none, [], none, none⟩,
              ⟨"w2", .SKIPPED, none, [], none, none⟩] :=
  (empty_whitelist_skips_all (fun _ => none) 1 60 1).1
    [⟨"w1", .fluentValidateOnly ⟨0, "", ""⟩ ⟨0, "", ""⟩ ⟨0, "", ""⟩⟩,
     ⟨"w2", .fluentValidateOnly ⟨0, "", ""⟩ ⟨0, "", ""⟩ ⟨1, "", "boom"⟩⟩]
    ["w2"]
